import Mathlib

/-!
Shallow embedding of the graph-visualization frontend
(`frontend/src/components/Graph.jsx`, `frontend/src/components/Sidebar.jsx`,
`frontend/src/App.jsx`).

Modelling conventions:
* JS numbers are modelled as `ℚ` (node ids, which are database integers, as `ℤ`).
* A possibly-absent field (`undefined`) is an `Option`; JS truthiness of a
  number is `≠ 0`, of a string is `≠ ""`, of an object/array is presence.
* A JS `Set` of ids is a list of ids (membership is what the code uses);
  a JS `Map` is an association list queried with `List.lookup` (all maps built
  by the code have pairwise-distinct keys, so first-match lookup agrees with
  `Map.get`).
* `Array.prototype.sort()` on strings is sorting by the string order,
  modelled with `List.insertionSort (· ≤ ·)`.
* The `useMemo`/`useCallback` wrappers are caching only and are dropped; each
  memoized value becomes a function of the component's props and state.
-/

namespace EGraphs

/-- The three view modes (`type ViewMode = 'topic' | 'tool' | 'llm'` in
`types/index.ts`); `Graph.jsx` branches on exactly these three strings. -/
inductive ViewMode
| topic
| tool
| llm
deriving DecidableEq, Repr

/-- A graph node (`GraphNode` in `types/index.ts`): the fields `Graph.jsx`
reads. `topics`/`tools`/`llms` and `impressiveness_score` are `Option`
because `Graph.jsx` guards each access with a truthiness check. -/
structure Node where
  id : ℤ
  title : String
  topics : Option (List String)
  tools : Option (List String)
  llms : Option (List String)
  impressiveness_score : Option ℚ
deriving DecidableEq, Repr

/-- An edge of the fetched data (`GraphEdge` in `types/index.ts`). -/
structure Edge where
  source : ℤ
  target : ℤ
  similarity : Option ℚ
deriving DecidableEq, Repr

/-- The fetched graph data (`GraphData` in `types/index.ts`). -/
structure GraphData where
  nodes : List Node
  edges : List Edge
deriving DecidableEq, Repr

/-- A link handed to the force-graph renderer (built in the `graphData`
memo of `Graph.jsx`). -/
structure Link where
  source : ℤ
  target : ℤ
  value : ℚ
deriving DecidableEq, Repr

/-- Props and state of the `Graph` component: the props `data`, `viewMode`,
`highlightedNodes` and the `useState` values `hoveredNode`,
`selectedCategory`. `highlightedNodes` is `Option` because the code guards it
with `highlightedNodes && ...`. -/
structure GraphState where
  data : GraphData
  viewMode : ViewMode
  highlightedNodes : Option (List ℤ)
  hoveredNode : Option Node
  selectedCategory : Option String
deriving DecidableEq, Repr

/-- The category list of a node for a view mode: `node.topics` under
`'topic'`, `node.tools` under `'tool'`, `node.llms` under `'llm'`. -/
def viewCategories (mode : ViewMode) (n : Node) : Option (List String) :=
  match mode with
  | .topic => n.topics
  | .tool => n.tools
  | .llm => n.llms

/-- The 18-entry color palette `categoryColors` of `Graph.jsx`. -/
def categoryColors : List String :=
  ["#4ECDC4", "#45B7D1", "#96CEB4", "#FFEAA7", "#A29BFE", "#FD79A8",
   "#FDCB6E", "#6C5CE7", "#FAB1A0", "#00B894", "#0984E3", "#D63031",
   "#E17055", "#74B9FF", "#55EFC4", "#FDCB6E", "#A29BFE", "#FD79A8"]

/-- Adding a list of elements to a JS `Set` in order (`categories.add`),
keeping first occurrences. -/
def addAll (acc : List String) (cs : List String) : List String :=
  cs.foldl (fun a c => if c ∈ a then a else a ++ [c]) acc

/-- The `Set` of all categories of all nodes for the current view mode, as
built by the loops in the `categoryColorMap` and `categories` memos of
`Graph.jsx` (`if (node.topics) node.topics.forEach(t => categories.add(t))`
and its `tool`/`llm` twins): an absent list contributes nothing. -/
def collectCategories (nodes : List Node) (mode : ViewMode) : List String :=
  nodes.foldl (fun acc n => addAll acc ((viewCategories mode n).getD [])) []

/-- `Array.from(categories).sort()`: the collected categories in string
order. -/
def sortedCategories (nodes : List Node) (mode : ViewMode) : List String :=
  (collectCategories nodes mode).insertionSort (· ≤ ·)

/-- The `forEach` loop of the `categoryColorMap` memo:
`colorMap.set(category, categoryColors[index % categoryColors.length])`,
with `start` the index of the first remaining element. -/
def assignColors : List String → ℕ → List (String × String)
  | [], _ => []
  | c :: rest, i =>
      (c, categoryColors.getD (i % categoryColors.length) "") :: assignColors rest (i + 1)

/-- The `categoryColorMap` memo of `Graph.jsx`: categories sorted, each
mapped to the palette entry at its index modulo the palette length. -/
def categoryColorMap (nodes : List Node) (mode : ViewMode) : List (String × String) :=
  assignColors (sortedCategories nodes mode) 0

/-- JS `x || d` for an optional string `x` (`undefined` and `""` are
falsy). -/
def jsStrOr (x : Option String) (d : String) : String :=
  match x with
  | some s => if s = "" then d else s
  | none => d

/-- JS `x || d` for an optional number `x` (`undefined` and `0` are
falsy). -/
def jsNumOr (x : Option ℚ) (d : ℚ) : ℚ :=
  match x with
  | some v => if v = 0 then d else v
  | none => d

/-- The `matchingNodeIds` memo of `Graph.jsx`: `Set()` when no category is
selected, otherwise the ids of the nodes whose category list for the view
mode contains the selected category (`node.topics &&
node.topics.includes(selectedCategory)`, and the `else`-branch reads
`node.llms`). -/
def matchingNodeIds (s : GraphState) : List ℤ :=
  match s.selectedCategory with
  | none => []
  | some c =>
      s.data.nodes.filterMap fun n =>
        if ((viewCategories s.viewMode n).getD []).contains c then some n.id else none

/-- `highlightedNodes && highlightedNodes.has(node.id)`. -/
def jsHas (o : Option (List ℤ)) (id : ℤ) : Bool :=
  match o with
  | some l => l.contains id
  | none => false

/-- Whether a node is a highlighted search result. -/
def isHighlighted (s : GraphState) (n : Node) : Bool :=
  jsHas s.highlightedNodes n.id

/-- `hoveredNode && node.id === hoveredNode.id`. -/
def isHovered (s : GraphState) (n : Node) : Bool :=
  match s.hoveredNode with
  | some h => n.id == h.id
  | none => false

/-- `selectedCategory === null || matchingNodeIds.has(node.id)`, the guard
computed identically in `getNodeColor` and `getNodeSize`. -/
def isMatching (s : GraphState) (n : Node) : Bool :=
  s.selectedCategory.isNone || (matchingNodeIds s).contains n.id

/-- The primary category of a node: `node.topics[0]` when
`viewMode === 'topic' && node.topics && node.topics.length > 0`, likewise
for `tool`/`llm`, else `null`. -/
def primaryCategory (mode : ViewMode) (n : Node) : Option String :=
  match viewCategories mode n with
  | some (c :: _) => some c
  | _ => none

/-- `getNodeColor` of `Graph.jsx`: highlighted nodes are red, hovered nodes
orange, non-matching nodes light gray, otherwise the color-map entry of the
primary category (`if (primaryCategory && categoryColorMap.has(...))`),
defaulting to `"#DFE6E9"`. -/
def getNodeColor (s : GraphState) (n : Node) : String :=
  if isHighlighted s n then "#FF6B6B"
  else if isHovered s n then "#FFA500"
  else if !(isMatching s n) then "#D3D3D3"
  else
    match primaryCategory s.viewMode n with
    | some c =>
        if c ≠ "" then
          match (categoryColorMap s.data.nodes s.viewMode).lookup c with
          | some col => col
          | none => "#DFE6E9"
        else "#DFE6E9"
    | none => "#DFE6E9"

/-- `getNodeSize` of `Graph.jsx`: `baseSize` is 4, overwritten with
`3 + impressiveness_score / 5` when the score is truthy; highlighted nodes
get `baseSize * 2`, hovered ones `baseSize * 1.5`, non-matching ones
`baseSize * 0.7`, otherwise `baseSize`. -/
def getNodeSize (s : GraphState) (n : Node) : ℚ :=
  let baseSize : ℚ :=
    match n.impressiveness_score with
    | some v => if v ≠ 0 then 3 + v / 5 else 4
    | none => 4
  if isHighlighted s n then baseSize * 2
  else if isHovered s n then baseSize * 1.5
  else if !(isMatching s n) then baseSize * 0.7
  else baseSize

/-- One rendered link: `{ source, target, value: edge.similarity || 0.5 }`. -/
def toLink (e : Edge) : Link :=
  { source := e.source, target := e.target, value := jsNumOr e.similarity 0.5 }

/-- The `graphData` memo of `Graph.jsx`: all nodes, plus the edges whose two
endpoints are both keys of the node map (`nodeMap.has(edge.source) &&
nodeMap.has(edge.target)`; the `Map` keyed by `node.id` is modelled by the
list of ids), turned into links. Its `useMemo` dependency list is `[data]`,
so it reads only `s.data`. -/
def graphData (s : GraphState) : List Node × List Link :=
  let nodeIds := s.data.nodes.map Node.id
  let validLinks :=
    (s.data.edges.filter fun e => nodeIds.contains e.source && nodeIds.contains e.target).map toLink
  (s.data.nodes, validLinks)

/-- The `categories` memo of `Graph.jsx` (the legend): the sorted category
list, each paired with `categoryColorMap.get(category) || '#DFE6E9'`. -/
def categories (nodes : List Node) (mode : ViewMode) : List (String × String) :=
  (sortedCategories nodes mode).map fun c =>
    (c, jsStrOr ((categoryColorMap nodes mode).lookup c) "#DFE6E9")

/-- The `useEffect` of `Graph.jsx` with dependency list `[viewMode]`: when
the view mode changes it runs `setSelectedCategory(null)`. -/
def resetCategoryEffect (s : GraphState) : GraphState :=
  { s with selectedCategory := none }

/-- State of the `AppContent` component of `App.jsx` that the claims
mention. -/
structure AppState where
  viewMode : ViewMode
  selectedPost : Option Node
  searchQuery : String
  highlightedNodes : List ℤ
  sidebarWidth : ℚ
deriving Repr

/-- `handleViewModeChange` of `App.jsx`: `setViewMode(mode);
setSelectedPost(null)`. -/
def handleViewModeChange (s : AppState) (mode : ViewMode) : AppState :=
  { s with viewMode := mode, selectedPost := none }

/-- `handleMouseMove` of `Sidebar.jsx`: the new width is
`Math.max(300, Math.min(innerWidth * 0.8, innerWidth - clientX))`. -/
def handleMouseMove (innerWidth clientX : ℚ) : ℚ :=
  let newWidth := innerWidth - clientX
  let minWidth : ℚ := 300
  let maxWidth : ℚ := innerWidth * 0.8
  max minWidth (min maxWidth newWidth)

/-! ### Sample data used to instantiate theorems with hypotheses -/

/-- A sample node with categories in every mode and a truthy score. -/
def n1 : Node :=
  { id := 1, title := "p1", topics := some ["attention", "rlhf"],
    tools := some ["pytorch"], llms := some ["gpt-4"],
    impressiveness_score := some 10 }

/-- A sample node with an absent tool list and an empty llm list. -/
def n2 : Node :=
  { id := 2, title := "p2", topics := some ["rlhf"], tools := none,
    llms := some [], impressiveness_score := none }

/-- A sample edge between the two sample nodes. -/
def e12 : Edge := { source := 1, target := 2, similarity := some (7 / 10) }

/-- A sample edge whose target id occurs in no node. -/
def e13 : Edge := { source := 1, target := 3, similarity := some 0 }

/-- Sample fetched data. -/
def sampleData : GraphData := { nodes := [n1, n2], edges := [e12, e13] }

/-- A sample component state with an active category filter. -/
def sampleState : GraphState :=
  { data := sampleData, viewMode := .topic, highlightedNodes := some [2],
    hoveredNode := none, selectedCategory := some "rlhf" }

/-- A node whose only topic is the empty string. -/
def nEmpty : Node :=
  { id := 5, title := "e", topics := some [""], tools := none, llms := none,
    impressiveness_score := none }

/-- A state rendering only `nEmpty`, with no highlight, hover or filter. -/
def sEmpty : GraphState :=
  { data := { nodes := [nEmpty], edges := [] }, viewMode := .topic,
    highlightedNodes := none, hoveredNode := none, selectedCategory := none }

/-- The sample state with no highlight, hover or filter. -/
def sClean : GraphState :=
  { data := sampleData, viewMode := .topic, highlightedNodes := none,
    hoveredNode := none, selectedCategory := none }

/-! ### Helper lemmas about the category machinery -/

theorem addAll_cons (acc : List String) (c : String) (cs : List String) :
    addAll acc (c :: cs) = addAll (if c ∈ acc then acc else acc ++ [c]) cs :=
  rfl

theorem addAll_mem (cs : List String) :
    ∀ acc x, x ∈ addAll acc cs ↔ x ∈ acc ∨ x ∈ cs := by
  induction cs with
  | nil =>
    intro acc x
    simp [addAll]
  | cons c cs ih =>
    intro acc x
    rw [addAll_cons, ih]
    by_cases hc : c ∈ acc
    · simp only [if_pos hc, List.mem_cons]
      constructor
      · rintro (h | h)
        · exact Or.inl h
        · exact Or.inr (Or.inr h)
      · rintro (h | h | h)
        · exact Or.inl h
        · exact Or.inl (h ▸ hc)
        · exact Or.inr h
    · simp only [if_neg hc, List.mem_append, List.mem_singleton, List.mem_cons]
      tauto

theorem addAll_nodup (cs : List String) :
    ∀ acc, acc.Nodup → (addAll acc cs).Nodup := by
  induction cs with
  | nil =>
    intro acc h
    simpa [addAll] using h
  | cons c cs ih =>
    intro acc h
    rw [addAll_cons]
    apply ih
    by_cases hc : c ∈ acc
    · simpa [hc] using h
    · rw [if_neg hc]
      simp [List.nodup_append, h, hc]

theorem collectCategories_aux (mode : ViewMode) (nodes : List Node) :
    ∀ acc c,
      (c ∈ nodes.foldl (fun acc n => addAll acc ((viewCategories mode n).getD [])) acc ↔
        c ∈ acc ∨ ∃ n, n ∈ nodes ∧ c ∈ (viewCategories mode n).getD []) ∧
      (acc.Nodup →
        (nodes.foldl (fun acc n => addAll acc ((viewCategories mode n).getD [])) acc).Nodup) := by
  induction nodes with
  | nil =>
    intro acc c
    simp
  | cons n ns ih =>
    intro acc c
    rw [List.foldl_cons]
    constructor
    · rw [(ih _ c).1, addAll_mem]
      constructor
      · rintro ((h | h) | ⟨m, hm, hp⟩)
        · exact Or.inl h
        · exact Or.inr ⟨n, List.mem_cons_self _ _, h⟩
        · exact Or.inr ⟨m, List.mem_cons_of_mem _ hm, hp⟩
      · rintro (h | ⟨m, hm, hp⟩)
        · exact Or.inl (Or.inl h)
        · rcases List.mem_cons.1 hm with rfl | hm'
          · exact Or.inl (Or.inr hp)
          · exact Or.inr ⟨m, hm', hp⟩
    · intro hacc
      exact (ih _ c).2 (addAll_nodup _ _ hacc)

theorem collectCategories_mem (nodes : List Node) (mode : ViewMode) (c : String) :
    c ∈ collectCategories nodes mode ↔
      ∃ n, n ∈ nodes ∧ c ∈ (viewCategories mode n).getD [] := by
  unfold collectCategories
  rw [(collectCategories_aux mode nodes [] c).1]
  simp

theorem collectCategories_nodup (nodes : List Node) (mode : ViewMode) :
    (collectCategories nodes mode).Nodup :=
  (collectCategories_aux mode nodes [] "").2 List.nodup_nil

theorem sortedCategories_mem (nodes : List Node) (mode : ViewMode) (c : String) :
    c ∈ sortedCategories nodes mode ↔
      ∃ n, n ∈ nodes ∧ c ∈ (viewCategories mode n).getD [] := by
  unfold sortedCategories
  rw [List.mem_insertionSort]
  exact collectCategories_mem nodes mode c

theorem sortedCategories_nodup (nodes : List Node) (mode : ViewMode) :
    (sortedCategories nodes mode).Nodup :=
  ((List.perm_insertionSort _ _).nodup_iff).2 (collectCategories_nodup nodes mode)

theorem sortedCategories_sorted (nodes : List Node) (mode : ViewMode) :
    List.Sorted (· ≤ ·) (sortedCategories nodes mode) :=
  List.sorted_insertionSort _ _

theorem assignColors_cons (c : String) (rest : List String) (i : ℕ) :
    assignColors (c :: rest) i =
      (c, categoryColors.getD (i % categoryColors.length) "") :: assignColors rest (i + 1) :=
  rfl

theorem assignColors_lookup_get :
    ∀ (l : List String) (start i : ℕ) (h : i < l.length), l.Nodup →
      (assignColors l start).lookup l[i] =
        some (categoryColors.getD ((start + i) % categoryColors.length) "") := by
  intro l
  induction l with
  | nil =>
    intro start i h
    exact absurd h (Nat.not_lt_zero i)
  | cons c rest ih =>
    intro start i h hnd
    rw [List.nodup_cons] at hnd
    match i with
    | 0 =>
      rw [assignColors_cons]
      simp [List.lookup_cons]
    | j + 1 =>
      have hj : j < rest.length := Nat.lt_of_succ_lt_succ h
      have hne : (rest[j] == c) = false :=
        beq_false_of_ne fun hEq => hnd.1 (hEq ▸ rest.getElem_mem hj)
      rw [List.getElem_cons_succ, assignColors_cons, List.lookup_cons, hne]
      have harith : start + (j + 1) = start + 1 + j := by omega
      rw [harith]
      exact ih (start + 1) j hj hnd.2

theorem categoryColors_length : categoryColors.length = 18 := rfl

theorem categoryColors_mem_ne_empty : ∀ x ∈ categoryColors, x ≠ "" := by decide

theorem assignColors_lookup_isSome :
    ∀ (l : List String) (start : ℕ) (c : String), c ∈ l →
      ∃ col, (assignColors l start).lookup c = some col := by
  intro l
  induction l with
  | nil =>
    intro start c hc
    exact absurd hc (List.not_mem_nil c)
  | cons a rest ih =>
    intro start c hc
    by_cases hca : c = a
    · subst hca
      refine ⟨categoryColors.getD (start % categoryColors.length) "", ?_⟩
      rw [assignColors_cons, List.lookup_cons]
      simp
    · have hm : c ∈ rest := (List.mem_cons.1 hc).resolve_left hca
      obtain ⟨col, hcol⟩ := ih (start + 1) c hm
      refine ⟨col, ?_⟩
      rw [assignColors_cons, List.lookup_cons, beq_false_of_ne hca]
      exact hcol

theorem primaryCategory_mem (mode : ViewMode) (n : Node) (c : String)
    (h : primaryCategory mode n = some c) :
    c ∈ (viewCategories mode n).getD [] := by
  cases hv : viewCategories mode n with
  | none => simp [primaryCategory, hv] at h
  | some l =>
    cases l with
    | nil => simp [primaryCategory, hv] at h
    | cons a t =>
      simp only [primaryCategory, hv, Option.some.injEq] at h
      simp [hv, ← h]

theorem categories_map_fst (nodes : List Node) (mode : ViewMode) :
    (categories nodes mode).map Prod.fst = sortedCategories nodes mode := by
  simp [categories, List.map_map, Function.comp_def]

theorem categoryColorMap_lookup (nodes : List Node) (mode : ViewMode) (i : ℕ)
    (h : i < (sortedCategories nodes mode).length) :
    (categoryColorMap nodes mode).lookup (sortedCategories nodes mode)[i]
      = some (categoryColors.getD (i % categoryColors.length) "") := by
  simpa [categoryColorMap] using
    assignColors_lookup_get (sortedCategories nodes mode) 0 i h
      (sortedCategories_nodup nodes mode)

/-! ### Claim theorems -/

/-- C3: search-result highlighting takes precedence over every other
coloring rule: a highlighted node is colored `"#FF6B6B"` whatever the hover
state, selected category and view mode are, and a non-highlighted hovered
node is colored `"#FFA500"` whatever the category filter is. -/
theorem highlight_precedence (s : GraphState) (n : Node) :
    (isHighlighted s n = true → getNodeColor s n = "#FF6B6B") ∧
    (isHighlighted s n = false → isHovered s n = true →
      getNodeColor s n = "#FFA500") := by
  constructor
  · intro h1
    simp [getNodeColor, h1]
  · intro h1 h2
    simp [getNodeColor, h1, h2]

/-- Witness for C3 at concrete states. -/
theorem highlight_precedence_witness :
    getNodeColor { sampleState with highlightedNodes := some [1] } n1 = "#FF6B6B" ∧
    getNodeColor { sampleState with highlightedNodes := none, hoveredNode := some n1 } n1
      = "#FFA500" :=
  ⟨(highlight_precedence { sampleState with highlightedNodes := some [1] } n1).1
      (by decide),
   (highlight_precedence
      { sampleState with highlightedNodes := none, hoveredNode := some n1 } n1).2
      (by decide) (by decide)⟩

/-- C4: node size is determined by the impressiveness score and the
highlight/hover/filter state: the base size is `3 + score / 5` for a truthy
score and `4` otherwise; highlighted nodes get twice that, hovered
non-highlighted nodes 1.5 times, non-matching nodes under an active filter
0.7 times, and otherwise the base size itself. -/
theorem nodeSize_formula (s : GraphState) (n : Node) (base : ℚ)
    (hbase : base = match n.impressiveness_score with
      | some v => if v ≠ 0 then 3 + v / 5 else 4
      | none => 4) :
    (isHighlighted s n = true → getNodeSize s n = base * 2) ∧
    (isHighlighted s n = false → isHovered s n = true →
      getNodeSize s n = base * 1.5) ∧
    (isHighlighted s n = false → isHovered s n = false → isMatching s n = false →
      getNodeSize s n = base * 0.7) ∧
    (isHighlighted s n = false → isHovered s n = false → isMatching s n = true →
      getNodeSize s n = base) := by
  subst hbase
  refine ⟨fun h1 => ?_, fun h1 h2 => ?_, fun h1 h2 h3 => ?_, fun h1 h2 h3 => ?_⟩
  · simp [getNodeSize, h1]
  · simp [getNodeSize, h1, h2]
  · simp [getNodeSize, h1, h2, h3]
  · simp [getNodeSize, h1, h2, h3]

/-- Witness for C4: the four size cases at concrete states (the base size
of `n1` is `3 + 10 / 5 = 5`). -/
theorem nodeSize_formula_witness :
    getNodeSize { sampleState with highlightedNodes := some [1] } n1 = 5 * 2 ∧
    getNodeSize { sampleState with highlightedNodes := none, hoveredNode := some n1 } n1
      = 5 * 1.5 ∧
    getNodeSize { sampleState with selectedCategory := some "vision" } n1 = 5 * 0.7 ∧
    getNodeSize { sampleState with selectedCategory := none } n1 = 5 :=
  ⟨(nodeSize_formula { sampleState with highlightedNodes := some [1] } n1 5
      (by norm_num [n1])).1 (by decide),
   (nodeSize_formula { sampleState with highlightedNodes := none, hoveredNode := some n1 }
      n1 5 (by norm_num [n1])).2.1 (by decide) (by decide),
   (nodeSize_formula { sampleState with selectedCategory := some "vision" } n1 5
      (by norm_num [n1])).2.2.1 (by decide) (by decide) (by decide),
   (nodeSize_formula { sampleState with selectedCategory := none } n1 5
      (by norm_num [n1])).2.2.2 (by decide) (by decide) (by decide)⟩

/-- C5: the graph data handed to the renderer is a function of the fetched
data alone — two states with the same fetched data yield the same rendered
nodes and links — and its node list is exactly the fetched node list, so
category selection, hover and highlights never remove nodes. -/
theorem graphData_only_depends_on_data (s₁ s₂ : GraphState)
    (h : s₁.data = s₂.data) :
    graphData s₁ = graphData s₂ ∧ (graphData s₁).1 = s₁.data.nodes := by
  constructor
  · unfold graphData
    rw [h]
  · rfl

/-- Witness for C5: selecting a category leaves the rendered graph data
unchanged. -/
theorem graphData_only_depends_on_data_witness :
    graphData { sampleState with selectedCategory := none } = graphData sampleState ∧
    (graphData sampleState).1 = sampleState.data.nodes :=
  ⟨(graphData_only_depends_on_data
      { sampleState with selectedCategory := none } sampleState rfl).1,
   (graphData_only_depends_on_data sampleState sampleState rfl).2⟩

/-- C6: during a sidebar resize the new width is
`max(300, min(0.8 * w, w - mouseX))`, hence it lies in `[300, 0.8 * w]`
whenever `300 ≤ 0.8 * w`. -/
theorem sidebar_width_clamped (w x : ℚ) :
    handleMouseMove w x = max 300 (min (w * 0.8) (w - x)) ∧
    (300 ≤ w * 0.8 →
      300 ≤ handleMouseMove w x ∧ handleMouseMove w x ≤ w * 0.8) := by
  refine ⟨rfl, fun h => ⟨le_max_left _ _, max_le h (min_le_left _ _)⟩⟩

/-- Witness for C6 at `w = 1000`, `mouseX = 400`. -/
theorem sidebar_width_clamped_witness :
    (300 : ℚ) ≤ 1000 * 0.8 ∧
    300 ≤ handleMouseMove 1000 400 ∧ handleMouseMove 1000 400 ≤ 1000 * 0.8 :=
  ⟨by norm_num, (sidebar_width_clamped 1000 400).2 (by norm_num)⟩

/-- C9: changing the view mode resets the interaction state: the `App`
handler sets the new mode and clears the selected post, and the `Graph`
effect keyed on `viewMode` clears the selected category. -/
theorem viewModeChange_resets_state (a : AppState) (m : ViewMode) (g : GraphState) :
    (handleViewModeChange a m).selectedPost = none ∧
    (handleViewModeChange a m).viewMode = m ∧
    (resetCategoryEffect g).selectedCategory = none :=
  ⟨rfl, rfl, rfl⟩

/-- C2: with a selected category `c`, an id is in `matchingNodeIds` exactly
when some node with that id has `c` in its category list for the current
view mode; with no selected category, `matchingNodeIds` is empty and every
node passes the `isMatching` guard used by `getNodeColor` and
`getNodeSize`. -/
theorem matching_characterization (s : GraphState) :
    (∀ c, s.selectedCategory = some c →
      ∀ id, id ∈ matchingNodeIds s ↔
        ∃ n, n ∈ s.data.nodes ∧ n.id = id ∧
          c ∈ (viewCategories s.viewMode n).getD []) ∧
    (s.selectedCategory = none →
      matchingNodeIds s = [] ∧ ∀ n, isMatching s n = true) := by
  constructor
  · intro c hc id
    simp only [matchingNodeIds, hc, List.mem_filterMap]
    constructor
    · rintro ⟨n, hn, hf⟩
      by_cases hcont : ((viewCategories s.viewMode n).getD []).contains c
      · refine ⟨n, hn, ?_, ?_⟩
        · rw [if_pos hcont] at hf
          exact Option.some_injective _ hf
        · simpa using hcont
      · rw [if_neg hcont] at hf
        exact absurd hf (by simp)
    · rintro ⟨n, hn, hid, hmem⟩
      refine ⟨n, hn, ?_⟩
      rw [if_pos (by simpa using hmem), hid]
  · intro hc
    refine ⟨by simp [matchingNodeIds, hc], fun n => by simp [isMatching, hc]⟩

/-- Witness for C2 at the sample state (`selectedCategory = some "rlhf"`,
topic mode) and its unfiltered variant. -/
theorem matching_characterization_witness :
    ((1 : ℤ) ∈ matchingNodeIds sampleState ↔
      ∃ n, n ∈ sampleState.data.nodes ∧ n.id = 1 ∧
        "rlhf" ∈ (viewCategories sampleState.viewMode n).getD []) ∧
    (matchingNodeIds { sampleState with selectedCategory := none } = [] ∧
      ∀ n, isMatching { sampleState with selectedCategory := none } n = true) :=
  ⟨(matching_characterization sampleState).1 "rlhf" rfl 1,
   (matching_characterization { sampleState with selectedCategory := none }).2 rfl⟩

/-- C8: an edge of the fetched data appears among the rendered links
exactly when both its source id and its target id occur among the ids of
the fetched nodes; edges mentioning a missing node are dropped. -/
theorem links_reference_existing_nodes (s : GraphState) (e : Edge)
    (he : e ∈ s.data.edges) :
    toLink e ∈ (graphData s).2 ↔
      e.source ∈ s.data.nodes.map Node.id ∧ e.target ∈ s.data.nodes.map Node.id := by
  unfold graphData
  simp only [List.mem_map, List.mem_filter]
  constructor
  · rintro ⟨e', ⟨he', hv⟩, heq⟩
    have hs : e'.source = e.source := congrArg Link.source heq
    have ht : e'.target = e.target := congrArg Link.target heq
    rw [Bool.and_eq_true] at hv
    constructor
    · rw [← hs]
      simpa using hv.1
    · rw [← ht]
      simpa using hv.2
  · rintro ⟨hs, ht⟩
    exact ⟨e, ⟨he, by simp [hs, ht]⟩, rfl⟩

/-- Witness for C8 at the sample data: the edge between the two existing
nodes. -/
theorem links_reference_existing_nodes_witness :
    toLink e12 ∈ (graphData sampleState).2 ↔
      e12.source ∈ sampleState.data.nodes.map Node.id ∧
      e12.target ∈ sampleState.data.nodes.map Node.id :=
  links_reference_existing_nodes sampleState e12 (List.mem_cons_self _ _)

/-- C10: every rendered link comes from a fetched edge and carries
`edge.similarity || 0.5` as its value: the similarity itself when it is
truthy, and `0.5` both when the similarity is exactly `0` and when the
field is absent. -/
theorem link_value_default (s : GraphState) (l : Link)
    (hl : l ∈ (graphData s).2) :
    ∃ e, e ∈ s.data.edges ∧ l = toLink e ∧
      (∀ v, e.similarity = some v → v ≠ 0 → l.value = v) ∧
      ((e.similarity = some 0 ∨ e.similarity = none) → l.value = 0.5) := by
  unfold graphData at hl
  simp only [List.mem_map, List.mem_filter] at hl
  obtain ⟨e, ⟨he, _⟩, heq⟩ := hl
  refine ⟨e, he, heq.symm, ?_, ?_⟩
  · intro v hv hv0
    rw [← heq]
    simp [toLink, jsNumOr, hv, hv0]
  · rintro (hv | hv) <;>
      (rw [← heq]; simp [toLink, jsNumOr, hv])

/-- C1 (amended): for a node of the fetched data that is neither
highlighted nor hovered and passes the category filter, `getNodeColor`
returns the color-map entry of the node's first category for the view mode
when that first category is a non-empty string, and returns `"#DFE6E9"`
when the node has no category for the mode or its first category is the
empty string. -/
theorem getNodeColor_uses_primary_category (s : GraphState) (n : Node)
    (h1 : isHighlighted s n = false) (h2 : isHovered s n = false)
    (h3 : isMatching s n = true) :
    (primaryCategory s.viewMode n = none → getNodeColor s n = "#DFE6E9") ∧
    (primaryCategory s.viewMode n = some "" → getNodeColor s n = "#DFE6E9") ∧
    (∀ c, n ∈ s.data.nodes → primaryCategory s.viewMode n = some c → c ≠ "" →
      ∃ col, (categoryColorMap s.data.nodes s.viewMode).lookup c = some col ∧
        getNodeColor s n = col) := by
  refine ⟨fun hp => ?_, fun hp => ?_, fun c hn hp hne => ?_⟩
  · simp [getNodeColor, h1, h2, h3, hp]
  · simp [getNodeColor, h1, h2, h3, hp]
  · have hc1 : c ∈ (viewCategories s.viewMode n).getD [] :=
      primaryCategory_mem _ _ _ hp
    have hc2 : c ∈ sortedCategories s.data.nodes s.viewMode :=
      (sortedCategories_mem _ _ c).2 ⟨n, hn, hc1⟩
    obtain ⟨col, hcol⟩ := assignColors_lookup_isSome _ 0 c hc2
    have hcol' : (categoryColorMap s.data.nodes s.viewMode).lookup c = some col := hcol
    refine ⟨col, hcol', ?_⟩
    simp [getNodeColor, h1, h2, h3, hp, hne, hcol']

/-- Counterexample to C1 as stated: a node whose only topic is the empty
string has a first category that the color map does map (to the first
palette entry), yet `getNodeColor` returns the uncategorized default
`"#DFE6E9"`, because the JS truthiness test `primaryCategory && ...`
rejects the empty string. -/
theorem getNodeColor_empty_category_counterexample :
    isHighlighted sEmpty nEmpty = false ∧ isHovered sEmpty nEmpty = false ∧
    isMatching sEmpty nEmpty = true ∧
    primaryCategory sEmpty.viewMode nEmpty = some "" ∧
    (categoryColorMap sEmpty.data.nodes sEmpty.viewMode).lookup "" = some "#4ECDC4" ∧
    getNodeColor sEmpty nEmpty = "#DFE6E9" :=
  ⟨rfl, rfl, rfl, rfl, rfl, rfl⟩

/-- Witness for C1 (amended) at a clean state: the color of `n1` is the
color-map entry of its first topic. -/
theorem getNodeColor_uses_primary_category_witness :
    ∃ col,
      (categoryColorMap sClean.data.nodes sClean.viewMode).lookup "attention"
        = some col ∧
      getNodeColor sClean n1 = col :=
  (getNodeColor_uses_primary_category sClean n1 rfl rfl rfl).2.2 "attention"
    (List.mem_cons_self _ _) rfl (by decide)

/-- C7: the legend lists exactly the deduplicated categories of all nodes
for the view mode, in sorted string order without repetition, and the `i`-th
legend entry carries the palette color at index `i` modulo the palette
length, the palette having 18 entries; so the category-to-color assignment
is determined by the node set and the view mode alone. -/
theorem legend_categories (nodes : List Node) (mode : ViewMode) :
    ((categories nodes mode).map Prod.fst).Sorted (· ≤ ·) ∧
    ((categories nodes mode).map Prod.fst).Nodup ∧
    (∀ c, c ∈ (categories nodes mode).map Prod.fst ↔
      ∃ n, n ∈ nodes ∧ c ∈ (viewCategories mode n).getD []) ∧
    categoryColors.length = 18 ∧
    ∀ i (h : i < (categories nodes mode).length),
      ((categories nodes mode).get ⟨i, h⟩).2
        = categoryColors.getD (i % categoryColors.length) "" := by
  refine ⟨?_, ?_, ?_, rfl, ?_⟩
  · rw [categories_map_fst]
    exact sortedCategories_sorted nodes mode
  · rw [categories_map_fst]
    exact sortedCategories_nodup nodes mode
  · intro c
    rw [categories_map_fst]
    exact sortedCategories_mem nodes mode c
  · intro i h
    have h' : i < (sortedCategories nodes mode).length := by
      simpa [categories] using h
    have hget : (categories nodes mode).get ⟨i, h⟩ =
        ((sortedCategories nodes mode)[i],
          jsStrOr ((categoryColorMap nodes mode).lookup (sortedCategories nodes mode)[i])
            "#DFE6E9") := by
      simp [categories]
    rw [hget, categoryColorMap_lookup nodes mode i h']
    have hcol : categoryColors.getD (i % categoryColors.length) "" ≠ "" := by
      have hm : i % categoryColors.length < categoryColors.length :=
        Nat.mod_lt _ (by decide)
      rw [List.getD_eq_getElem _ _ hm]
      exact categoryColors_mem_ne_empty _ (List.getElem_mem hm)
    show jsStrOr (some (categoryColors.getD (i % categoryColors.length) "")) "#DFE6E9"
        = categoryColors.getD (i % categoryColors.length) ""
    simp only [jsStrOr]
    rw [if_neg hcol]

/-- Witness for C7 at the sample nodes: the legend is sorted and its first
entry is colored with the first palette entry. -/
theorem legend_categories_witness :
    ((categories [n1, n2] ViewMode.topic).map Prod.fst).Sorted (· ≤ ·) ∧
    ((categories [n1, n2] ViewMode.topic).getD 0 ("", "")).2 = "#4ECDC4" := by
  refine ⟨(legend_categories [n1, n2] ViewMode.topic).1, ?_⟩
  have hlen : (categories [n1, n2] ViewMode.topic).length
      = (collectCategories [n1, n2] ViewMode.topic).length := by
    simp only [categories, List.length_map, sortedCategories]
    exact (List.perm_insertionSort _ _).length_eq
  have h0 : 0 < (categories [n1, n2] ViewMode.topic).length := by
    rw [hlen]
    decide
  rw [List.getD_eq_getElem _ _ h0]
  have := (legend_categories [n1, n2] ViewMode.topic).2.2.2.2 0 h0
  rw [List.get_eq_getElem] at this
  rw [this]
  rfl

/-- Witness for C10 at a concrete rendered link. -/
theorem link_value_default_witness :
    ∃ e, e ∈ sampleState.data.edges ∧ toLink e12 = toLink e ∧
      (∀ v, e.similarity = some v → v ≠ 0 → (toLink e12).value = v) ∧
      ((e.similarity = some 0 ∨ e.similarity = none) → (toLink e12).value = 0.5) :=
  link_value_default sampleState (toLink e12)
    (by simp [graphData, sampleState, sampleData, e12, e13, n1, n2])

end EGraphs
